import Mathlib

/-!
Shallow embedding of the reference-counted smart pointers of
`src/SharedPtr/smart_pointers.h` (namespace `My`) and of the variant file
`src/unnamed/part_000`: the control block with its two-phase teardown
(`shared_release` / `weak_release` invoking the virtual `dispose` /
`destroy`), and the `SharedPtr` / `WeakPtr` handle operations over an
explicit heap of control blocks.

The C++ counters are `size_t`, so increments and decrements are modelled
modulo `2 ^ 64`.  The virtual calls `dispose()` (payload teardown) and
`destroy()` (storage reclamation) have no effect on the two reference
counters; their observable effect is modelled by the instrumentation
counters `dispose_calls` / `destroy_calls` — the spec's "counting disposal
callable" and "instrumented allocator".  Dereferencing a null control-block
pointer is undefined behaviour in the source; operations that may do so
return `Option`, with `none` marking the undefined case.
-/

set_option autoImplicit false

namespace My

/-- Width bound of `size_t` on the target platform. -/
def w64 : Nat := 2 ^ 64

/-- Effect of the `size_t` increment `++n`. -/
def inc64 (n : Nat) : Nat := (n + 1) % w64

/-- Effect of the `size_t` decrement `--n`. -/
def dec64 (n : Nat) : Nat := (n + (w64 - 1)) % w64

lemma w64_pos : 0 < w64 := Nat.pow_pos (by omega)

lemma inc64_eq_of_lt {n : Nat} (h : n + 1 < w64) : inc64 n = n + 1 := by
  unfold inc64
  exact Nat.mod_eq_of_lt h

lemma dec64_eq_of_lt {n : Nat} (h0 : 0 < n) (h : n < w64) : dec64 n = n - 1 := by
  have hw : 0 < w64 := w64_pos
  unfold dec64
  have h1 : n + (w64 - 1) = (n - 1) + w64 := by omega
  rw [h1, Nat.add_mod_right]
  exact Nat.mod_eq_of_lt (by omega)

/--
`BaseControlBlock` of `smart_pointers.h` lines 13-42 (identical in
`part_000` lines 8-37): the two `size_t` reference counters, plus the two
instrumentation counters recording how many times the virtual `dispose()`
and `destroy()` have been invoked on this block (in the source these calls
tear down the payload and reclaim the block's storage; they do not touch
the reference counters).
-/
structure BaseControlBlock where
  shared_count : Nat
  weak_count : Nat
  dispose_calls : Nat
  destroy_calls : Nat
  deriving DecidableEq, Repr

/--
`BaseControlBlock::shared_release` (header lines 21-29):
`--shared_count; if (shared_count == 0) { dispose(); if (weak_count == 0) { destroy(); } }`.
-/
def BaseControlBlock.shared_release (b : BaseControlBlock) : BaseControlBlock :=
  let sc := dec64 b.shared_count
  if sc = 0 then
    let b1 : BaseControlBlock :=
      { b with shared_count := sc, dispose_calls := b.dispose_calls + 1 }
    if b1.weak_count = 0 then { b1 with destroy_calls := b1.destroy_calls + 1 }
    else b1
  else { b with shared_count := sc }

/--
`BaseControlBlock::weak_release` (header lines 31-36):
`--weak_count; if (weak_count == 0 && shared_count == 0) { destroy(); }`.
-/
def BaseControlBlock.weak_release (b : BaseControlBlock) : BaseControlBlock :=
  let b1 : BaseControlBlock := { b with weak_count := dec64 b.weak_count }
  if b1.weak_count = 0 ∧ b1.shared_count = 0 then
    { b1 with destroy_calls := b1.destroy_calls + 1 }
  else b1

/--
Control-block state created by both allocation paths: `allocate_direct`
(header line 107) and `allocate_shared` (header line 232) construct the
block with `shared_count = 1, weak_count = 0`, and no teardown call has
happened yet.
-/
def freshBlock : BaseControlBlock := ⟨1, 0, 0, 0⟩

/--
The handle operations that can touch one control block, as performed by the
`SharedPtr` / `WeakPtr` special member functions of the source.
-/
inductive Op where
  /-- `SharedPtr` copy construction (header lines 131-140), which does
  `++(cb_->shared_count)`; requires a live `SharedPtr` to copy from. -/
  | copyShared
  /-- `WeakPtr` construction from a `SharedPtr` (header lines 245-250) or
  from another `WeakPtr` (lines 252-257): `++(cb_->weak_count)`. -/
  | newWeak
  /-- `~SharedPtr` on a handle of this block (header lines 185-190):
  calls `shared_release`. -/
  | dropShared
  /-- `~WeakPtr` on a handle of this block (header lines 281-285):
  calls `weak_release`. -/
  | dropWeak
  /-- `WeakPtr::lock` (header lines 296-298): if `expired()` it returns an
  empty handle and the block is untouched, otherwise the private
  `SharedPtr(WeakPtr&)` constructor does `++(cb_->shared_count)`. -/
  | lockWeak
  deriving DecidableEq, Repr

/-- Effect of one handle operation on the block. -/
def Op.step (b : BaseControlBlock) : Op → BaseControlBlock
  | .copyShared => { b with shared_count := inc64 b.shared_count }
  | .newWeak => { b with weak_count := inc64 b.weak_count }
  | .dropShared => b.shared_release
  | .dropWeak => b.weak_release
  | .lockWeak =>
      if b.shared_count = 0 then b
      else { b with shared_count := inc64 b.shared_count }

/--
Handle discipline: an operation is only performable when a handle able to
perform it exists.  Copying a `SharedPtr`, or constructing a `WeakPtr` from
one, needs a live strong handle; destroying a handle needs that handle to
be live; `lock` and `WeakPtr` copies need a live weak handle.  The source
makes over-release undefined behaviour, so traces outside this discipline
are out of contract.
-/
def Op.pre (b : BaseControlBlock) : Op → Bool
  | .copyShared => decide (0 < b.shared_count)
  | .newWeak => decide (0 < b.shared_count ∨ 0 < b.weak_count)
  | .dropShared => decide (0 < b.shared_count)
  | .dropWeak => decide (0 < b.weak_count)
  | .lockWeak => decide (0 < b.weak_count)

/-- Run a list of handle operations on one block, first operation first. -/
def run (b : BaseControlBlock) : List Op → BaseControlBlock
  | [] => b
  | op :: ops => run (op.step b) ops

/-- Every operation of the list satisfies the handle discipline at the
state where it executes. -/
def ValidFrom (b : BaseControlBlock) : List Op → Bool
  | [] => true
  | op :: ops => op.pre b && ValidFrom (op.step b) ops

/--
Invariant tying the instrumentation counters to the reference counters:
`dispose` has run exactly once when `shared_count = 0` and never before,
and `destroy` has run exactly once when both counters are `0` and never
before.
-/
def CountsOK (b : BaseControlBlock) : Prop :=
  b.dispose_calls = (if b.shared_count = 0 then 1 else 0) ∧
  b.destroy_calls = (if b.shared_count = 0 ∧ b.weak_count = 0 then 1 else 0)

lemma shared_release_shared_count (b : BaseControlBlock) :
    b.shared_release.shared_count = dec64 b.shared_count := by
  simp only [BaseControlBlock.shared_release]
  split_ifs <;> rfl

lemma shared_release_weak_count (b : BaseControlBlock) :
    b.shared_release.weak_count = b.weak_count := by
  simp only [BaseControlBlock.shared_release]
  split_ifs <;> rfl

lemma shared_release_dispose_calls (b : BaseControlBlock) :
    b.shared_release.dispose_calls
      = b.dispose_calls + (if dec64 b.shared_count = 0 then 1 else 0) := by
  simp only [BaseControlBlock.shared_release]
  split_ifs <;> simp

lemma shared_release_destroy_calls (b : BaseControlBlock) :
    b.shared_release.destroy_calls
      = b.destroy_calls
        + (if dec64 b.shared_count = 0 ∧ b.weak_count = 0 then 1 else 0) := by
  simp only [BaseControlBlock.shared_release]
  split_ifs <;> simp_all

lemma weak_release_shared_count (b : BaseControlBlock) :
    b.weak_release.shared_count = b.shared_count := by
  simp only [BaseControlBlock.weak_release]
  split_ifs <;> rfl

lemma weak_release_weak_count (b : BaseControlBlock) :
    b.weak_release.weak_count = dec64 b.weak_count := by
  simp only [BaseControlBlock.weak_release]
  split_ifs <;> rfl

lemma weak_release_dispose_calls (b : BaseControlBlock) :
    b.weak_release.dispose_calls = b.dispose_calls := by
  simp only [BaseControlBlock.weak_release]
  split_ifs <;> rfl

lemma weak_release_destroy_calls (b : BaseControlBlock) :
    b.weak_release.destroy_calls
      = b.destroy_calls
        + (if dec64 b.weak_count = 0 ∧ b.shared_count = 0 then 1 else 0) := by
  simp only [BaseControlBlock.weak_release]
  split_ifs <;> simp_all

lemma step_preserves (b : BaseControlBlock) (op : Op)
    (hpre : op.pre b = true)
    (hbound : b.shared_count + b.weak_count + 1 < w64)
    (hok : CountsOK b) :
    CountsOK (op.step b) ∧
      (op.step b).shared_count + (op.step b).weak_count
        ≤ b.shared_count + b.weak_count + 1 := by
  obtain ⟨h1, h2⟩ := hok
  cases op with
  | copyShared =>
      have hsc : 0 < b.shared_count := by simpa [Op.pre] using hpre
      have hi : inc64 b.shared_count = b.shared_count + 1 :=
        inc64_eq_of_lt (by omega)
      refine ⟨⟨?_, ?_⟩, ?_⟩ <;>
        simp only [Op.step, hi, CountsOK] <;>
        split_ifs at h1 h2 ⊢ <;> first | omega | simp_all
  | newWeak =>
      have hp : 0 < b.shared_count ∨ 0 < b.weak_count := by
        simpa [Op.pre] using hpre
      have hi : inc64 b.weak_count = b.weak_count + 1 :=
        inc64_eq_of_lt (by omega)
      refine ⟨⟨?_, ?_⟩, ?_⟩ <;>
        simp only [Op.step, hi, CountsOK] <;>
        split_ifs at h1 h2 ⊢ <;> first | omega | simp_all
  | dropShared =>
      have hsc : 0 < b.shared_count := by simpa [Op.pre] using hpre
      have hd : dec64 b.shared_count = b.shared_count - 1 :=
        dec64_eq_of_lt hsc (by omega)
      refine ⟨⟨?_, ?_⟩, ?_⟩ <;>
        simp only [Op.step, shared_release_shared_count,
          shared_release_weak_count, shared_release_dispose_calls,
          shared_release_destroy_calls, hd] <;>
        split_ifs at h1 h2 ⊢ <;> omega
  | dropWeak =>
      have hwc : 0 < b.weak_count := by simpa [Op.pre] using hpre
      have hd : dec64 b.weak_count = b.weak_count - 1 :=
        dec64_eq_of_lt hwc (by omega)
      refine ⟨⟨?_, ?_⟩, ?_⟩ <;>
        simp only [Op.step, weak_release_shared_count,
          weak_release_weak_count, weak_release_dispose_calls,
          weak_release_destroy_calls, hd] <;>
        split_ifs at h1 h2 ⊢ <;> omega
  | lockWeak =>
      by_cases hz : b.shared_count = 0
      · simp only [Op.step, if_pos hz]
        exact ⟨⟨h1, h2⟩, by omega⟩
      · have hi : inc64 b.shared_count = b.shared_count + 1 :=
          inc64_eq_of_lt (by omega)
        refine ⟨⟨?_, ?_⟩, ?_⟩ <;>
          simp only [Op.step, if_neg hz, hi] <;>
          split_ifs at h1 h2 ⊢ <;> first | omega | simp_all

lemma run_preserves : ∀ (ops : List Op) (b : BaseControlBlock),
    ValidFrom b ops = true →
    b.shared_count + b.weak_count + ops.length < w64 →
    CountsOK b → CountsOK (run b ops)
  | [], _, _, _, hok => hok
  | op :: ops, b, hvalid, hbound, hok => by
      simp only [ValidFrom, Bool.and_eq_true] at hvalid
      have hstep := step_preserves b op hvalid.1 (by simp at hbound; omega) hok
      exact run_preserves ops (op.step b) hvalid.2
        (by simp at hbound ⊢; omega) hstep.1

lemma validFrom_of_append {b : BaseControlBlock} :
    ∀ {p s : List Op}, ValidFrom b (p ++ s) = true → ValidFrom b p = true := by
  intro p
  induction p generalizing b with
  | nil => intro s _; rfl
  | cons op ops ih =>
      intro s h
      simp only [List.cons_append, ValidFrom, Bool.and_eq_true] at h ⊢
      exact ⟨h.1, ih h.2⟩

lemma countsOK_fresh : CountsOK freshBlock := by
  constructor <;> simp [freshBlock, CountsOK]

lemma countsOK_of_valid (ops : List Op)
    (hvalid : ValidFrom freshBlock ops = true)
    (hlen : ops.length + 1 < w64) :
    CountsOK (run freshBlock ops) :=
  run_preserves ops freshBlock hvalid
    (by simp [freshBlock]; omega) countsOK_fresh

/--
Claim C1: for every control block, the payload teardown `dispose` is
invoked exactly once, exactly at the moment the strong count transitions
from 1 to 0 (via `shared_release` of the last Shared Handle), and never
before or after that transition.  Formalisation: along every trace of
handle operations respecting the handle discipline, started at a freshly
created block, at every point of the trace (`p` ranges over all initial
segments) `dispose` has run exactly once if the strong count is `0` and
never while it is positive — since `dispose_calls` never decreases, the
single call happens exactly at the step where the count first becomes `0`;
and the only step that can invoke `dispose` at all is a `shared_release`
performed on a block whose strong count is exactly `1`.
-/
theorem C1_dispose_exactly_once (ops p s : List Op)
    (hsplit : ops = p ++ s)
    (hvalid : ValidFrom freshBlock ops = true)
    (hlen : ops.length + 1 < w64) :
    (run freshBlock p).dispose_calls
        = (if (run freshBlock p).shared_count = 0 then 1 else 0) ∧
      ∀ (b : BaseControlBlock) (op : Op), op.pre b = true →
        b.shared_count + b.weak_count + 1 < w64 →
        b.dispose_calls < (op.step b).dispose_calls →
        op = Op.dropShared ∧ b.shared_count = 1 := by
  constructor
  · have hvp : ValidFrom freshBlock p = true :=
      validFrom_of_append (hsplit ▸ hvalid)
    have hlp : p.length ≤ ops.length := by subst hsplit; simp
    exact (run_preserves p freshBlock hvp
      (by simp [freshBlock]; omega) countsOK_fresh).1
  · intro b op hpre hb hlt
    cases op with
    | copyShared =>
        simp only [Op.step] at hlt
        exact absurd hlt (Nat.lt_irrefl _)
    | newWeak =>
        simp only [Op.step] at hlt
        exact absurd hlt (Nat.lt_irrefl _)
    | dropShared =>
        have hsc : 0 < b.shared_count := by simpa [Op.pre] using hpre
        have hd : dec64 b.shared_count = b.shared_count - 1 :=
          dec64_eq_of_lt hsc (by omega)
        refine ⟨rfl, ?_⟩
        simp only [Op.step, shared_release_dispose_calls, hd] at hlt
        by_cases h1 : b.shared_count - 1 = 0
        · omega
        · simp [h1] at hlt
    | dropWeak =>
        simp only [Op.step, weak_release_dispose_calls] at hlt
        exact absurd hlt (Nat.lt_irrefl _)
    | lockWeak =>
        by_cases hz : b.shared_count = 0
        · simp only [Op.step, if_pos hz] at hlt
          exact absurd hlt (Nat.lt_irrefl _)
        · simp only [Op.step, if_neg hz] at hlt
          exact absurd hlt (Nat.lt_irrefl _)

/--
Concrete instantiation of `C1_dispose_exactly_once` on the trace "attach a
weak handle, drop the only strong handle, drop the weak handle", observed
just after the strong drop: `dispose` has run exactly once there.
-/
theorem C1_dispose_exactly_once_witness :
    ValidFrom freshBlock [Op.newWeak, Op.dropShared, Op.dropWeak] = true ∧
    ([Op.newWeak, Op.dropShared, Op.dropWeak] : List Op).length + 1 < w64 ∧
    (run freshBlock [Op.newWeak, Op.dropShared]).dispose_calls
      = (if (run freshBlock [Op.newWeak, Op.dropShared]).shared_count = 0
         then 1 else 0) :=
  ⟨by decide, by decide,
    (C1_dispose_exactly_once
      [Op.newWeak, Op.dropShared, Op.dropWeak]
      [Op.newWeak, Op.dropShared] [Op.dropWeak]
      rfl (by decide) (by decide)).1⟩

/--
Claim C2: for every control block, the storage reclamation `destroy` is
invoked exactly once, exactly when the sum of strong count and weak count
first reaches 0 — whether the last release was a `shared_release` (weak
count already 0) or a `weak_release` (strong count already 0) — and never
while either count is positive.  Formalisation: along every disciplined
trace from a fresh block, at every point `destroy` has run exactly once if
both counts are `0` and never while either is positive; and the only steps
that can invoke `destroy` are a `shared_release` or a `weak_release` that
leaves both counts at `0`.
-/
theorem C2_destroy_exactly_once (ops p s : List Op)
    (hsplit : ops = p ++ s)
    (hvalid : ValidFrom freshBlock ops = true)
    (hlen : ops.length + 1 < w64) :
    (run freshBlock p).destroy_calls
        = (if (run freshBlock p).shared_count = 0
              ∧ (run freshBlock p).weak_count = 0 then 1 else 0) ∧
      ∀ (b : BaseControlBlock) (op : Op), op.pre b = true →
        b.shared_count + b.weak_count + 1 < w64 →
        b.destroy_calls < (op.step b).destroy_calls →
        (op.step b).shared_count = 0 ∧ (op.step b).weak_count = 0 ∧
          (op = Op.dropShared ∨ op = Op.dropWeak) := by
  constructor
  · have hvp : ValidFrom freshBlock p = true :=
      validFrom_of_append (hsplit ▸ hvalid)
    have hlp : p.length ≤ ops.length := by subst hsplit; simp
    exact (run_preserves p freshBlock hvp
      (by simp [freshBlock]; omega) countsOK_fresh).2
  · intro b op hpre hb hlt
    cases op with
    | copyShared =>
        simp only [Op.step] at hlt
        exact absurd hlt (Nat.lt_irrefl _)
    | newWeak =>
        simp only [Op.step] at hlt
        exact absurd hlt (Nat.lt_irrefl _)
    | dropShared =>
        have hsc : 0 < b.shared_count := by simpa [Op.pre] using hpre
        have hd : dec64 b.shared_count = b.shared_count - 1 :=
          dec64_eq_of_lt hsc (by omega)
        simp only [Op.step, shared_release_destroy_calls, hd] at hlt
        by_cases hc : b.shared_count - 1 = 0 ∧ b.weak_count = 0
        · refine ⟨?_, ?_, Or.inl rfl⟩
          · simp only [Op.step, shared_release_shared_count, hd]
            omega
          · simp only [Op.step, shared_release_weak_count]
            omega
        · simp [hc] at hlt
    | dropWeak =>
        have hwc : 0 < b.weak_count := by simpa [Op.pre] using hpre
        have hd : dec64 b.weak_count = b.weak_count - 1 :=
          dec64_eq_of_lt hwc (by omega)
        simp only [Op.step, weak_release_destroy_calls, hd] at hlt
        by_cases hc : b.weak_count - 1 = 0 ∧ b.shared_count = 0
        · refine ⟨?_, ?_, Or.inr rfl⟩
          · simp only [Op.step, weak_release_shared_count]
            omega
          · simp only [Op.step, weak_release_weak_count, hd]
            omega
        · simp [hc] at hlt
    | lockWeak =>
        by_cases hz : b.shared_count = 0
        · simp only [Op.step, if_pos hz] at hlt
          exact absurd hlt (Nat.lt_irrefl _)
        · simp only [Op.step, if_neg hz] at hlt
          exact absurd hlt (Nat.lt_irrefl _)

/--
Concrete instantiation of `C2_destroy_exactly_once` on the trace "attach a
weak handle, drop the only strong handle, drop the weak handle", observed
at the end: `destroy` has run exactly once, triggered by the final
`weak_release`.
-/
theorem C2_destroy_exactly_once_witness :
    ValidFrom freshBlock [Op.newWeak, Op.dropShared, Op.dropWeak] = true ∧
    ([Op.newWeak, Op.dropShared, Op.dropWeak] : List Op).length + 1 < w64 ∧
    (run freshBlock [Op.newWeak, Op.dropShared, Op.dropWeak]).destroy_calls
      = (if (run freshBlock [Op.newWeak, Op.dropShared, Op.dropWeak]).shared_count = 0
            ∧ (run freshBlock [Op.newWeak, Op.dropShared, Op.dropWeak]).weak_count = 0
         then 1 else 0) :=
  ⟨by decide, by decide,
    (C2_destroy_exactly_once
      [Op.newWeak, Op.dropShared, Op.dropWeak]
      [Op.newWeak, Op.dropShared, Op.dropWeak] []
      (by simp) (by decide) (by decide)).1⟩

/-! ## Handles over a heap of control blocks -/

/-- Identity of a control block (abstract address). -/
abbrev BlockId := Nat

/-- Heap of control blocks, indexed by block identity. -/
abbrev Heap := BlockId → BaseControlBlock

/-- Pointwise heap update at one block. -/
def updateHeap (σ : Heap) (i : BlockId) (b : BaseControlBlock) : Heap :=
  fun j => if j = i then b else σ j

lemma updateHeap_same (σ : Heap) (i : BlockId) (b : BaseControlBlock) :
    updateHeap σ i b i = b := by
  simp [updateHeap]

lemma updateHeap_other (σ : Heap) (i : BlockId) (b : BaseControlBlock)
    (j : BlockId) (hj : j ≠ i) : updateHeap σ i b j = σ j := by
  simp [updateHeap, hj]

/--
`SharedPtr` data members (header lines 212-214): a control-block pointer
`cb_` and the cached payload address `ptr_`, both possibly null (`none`).
The payload address is abstract; only its identity matters here.
-/
structure SharedPtr where
  cb_ : Option BlockId
  ptr_ : Option Nat
  deriving DecidableEq, Repr

/-- `WeakPtr` data members (header lines 300-302). -/
structure WeakPtr where
  cb_ : Option BlockId
  ptr_ : Option Nat
  deriving DecidableEq, Repr

/--
`SharedPtr` copy constructor of the header, lines 131-134:
`cb_(other.cb_), ptr_(other.ptr_)` followed by the unconditional
`++(cb_->shared_count)`.  On an empty source this dereferences the null
control-block pointer — undefined behaviour, modelled as `none`.
-/
def SharedPtr.copy (other : SharedPtr) (σ : Heap) : Option (SharedPtr × Heap) :=
  match other.cb_ with
  | none => none
  | some i =>
      some (⟨other.cb_, other.ptr_⟩,
        updateHeap σ i
          { σ i with shared_count := inc64 (σ i).shared_count })

/--
`SharedPtr` copy constructor of `part_000`, lines 135-139: identical to
the header's except the increment is guarded by `if (cb_)`, so copying an
empty handle is defined and touches no block.
-/
def SharedPtr.copy_guarded (other : SharedPtr) (σ : Heap) : SharedPtr × Heap :=
  match other.cb_ with
  | none => (⟨other.cb_, other.ptr_⟩, σ)
  | some i =>
      (⟨other.cb_, other.ptr_⟩,
        updateHeap σ i
          { σ i with shared_count := inc64 (σ i).shared_count })

/-- `~SharedPtr` (header lines 185-190): `if (cb_) cb_->shared_release();`. -/
def SharedPtr.dtor (h : SharedPtr) (σ : Heap) : Heap :=
  match h.cb_ with
  | none => σ
  | some i => updateHeap σ i (σ i).shared_release

/--
`SharedPtr::swap` (header lines 193-197): `std::swap(cb_, other.cb_);`
`std::swap(ptr_, other.ptr_);`.  Only the two handles' members are
touched; the heap of control blocks is not accessed.  Returns the new
value of `*this`, the new value of `other`, and the heap.
-/
def SharedPtr.swap (a b : SharedPtr) (σ : Heap) :
    SharedPtr × SharedPtr × Heap :=
  (⟨b.cb_, b.ptr_⟩, ⟨a.cb_, a.ptr_⟩, σ)

/--
`SharedPtr::use_count` (header line 199): `return cb_->shared_count;`.
Undefined (null dereference) on an empty handle.
-/
def SharedPtr.use_count (h : SharedPtr) (σ : Heap) : Option Nat :=
  h.cb_.map fun i => (σ i).shared_count

/--
`SharedPtr::reset()` (header line 204): `SharedPtr().swap(*this);`.  The
default-constructed temporary swaps itself with `*this`, picking up the
old state, and its destructor releases that state at the end of the
statement.
-/
def SharedPtr.reset (h : SharedPtr) (σ : Heap) : SharedPtr × Heap :=
  let t := SharedPtr.swap ⟨none, none⟩ h σ
  (t.2.1, SharedPtr.dtor t.1 t.2.2)

/--
Copy assignment `operator=(SharedPtr<Y>&)` of the header, lines 151-156:
construct a temporary copy of `other` (`auto tmp_ptr = other;`), swap it
with `*this`, return; the temporary's destructor then releases whatever
`*this` previously held.  The formal parameter `other` is read in full
before `*this` is written, so the definition also models the aliased call
`h = h`.
-/
def SharedPtr.assign (self other : SharedPtr) (σ : Heap) :
    Option (SharedPtr × Heap) :=
  match SharedPtr.copy other σ with
  | none => none
  | some (tmp, σ1) =>
      let t := SharedPtr.swap self tmp σ1
      some (t.1, SharedPtr.dtor t.2.1 t.2.2)

/--
Move assignment `operator=(SharedPtr<Y>&&)` of the header, lines 158-163,
at the aliased call `h = std::move(h)`: the move construction of the
temporary (`auto tmp = std::move(other);`) takes the members and nulls
`other` — which is `*this` — then `swap(tmp)` moves them back, and the
temporary (now holding the nulled members) is destroyed without any
release.
-/
def SharedPtr.assign_move_self (h : SharedPtr) (σ : Heap) :
    SharedPtr × Heap :=
  let tmp : SharedPtr := ⟨h.cb_, h.ptr_⟩
  let self1 : SharedPtr := ⟨none, none⟩
  let t := SharedPtr.swap self1 tmp σ
  (t.1, SharedPtr.dtor t.2.1 t.2.2)

/--
`WeakPtr` constructor from a `SharedPtr` (header lines 245-250):
`cb_(shared_ptr.cb_), ptr_(shared_ptr.ptr_)` followed by the unconditional
`++(cb_->weak_count)`; undefined (`none`) on an empty source.
-/
def WeakPtr.fromShared (h : SharedPtr) (σ : Heap) : Option (WeakPtr × Heap) :=
  match h.cb_ with
  | none => none
  | some i =>
      some (⟨h.cb_, h.ptr_⟩,
        updateHeap σ i { σ i with weak_count := inc64 (σ i).weak_count })

/-- `~WeakPtr` (header lines 281-285): `if (cb_) cb_->weak_release();`. -/
def WeakPtr.dtor (w : WeakPtr) (σ : Heap) : Heap :=
  match w.cb_ with
  | none => σ
  | some i => updateHeap σ i (σ i).weak_release

/--
`WeakPtr::expired` (header line 294):
`return cb_ && cb_->shared_count == 0;`.
-/
def WeakPtr.expired (w : WeakPtr) (σ : Heap) : Bool :=
  match w.cb_ with
  | none => false
  | some i => decide ((σ i).shared_count = 0)

/--
The private `SharedPtr(WeakPtr&)` constructor (header lines 177-182,
`part_000` lines 177-181): copies the members, then performs the
unconditional `++(cb_->shared_count)`; undefined (`none`) on a null
control-block pointer.
-/
def SharedPtr.fromWeak (w : WeakPtr) (σ : Heap) : Option (SharedPtr × Heap) :=
  match w.cb_ with
  | none => none
  | some i =>
      some (⟨w.cb_, w.ptr_⟩,
        updateHeap σ i { σ i with shared_count := inc64 (σ i).shared_count })

/--
`WeakPtr::lock` (header lines 296-298):
`return expired() ? SharedPtr<T>() : SharedPtr<T>(*this);`.
-/
def WeakPtr.lock (w : WeakPtr) (σ : Heap) : Option (SharedPtr × Heap) :=
  if w.expired σ then some (⟨none, none⟩, σ) else SharedPtr.fromWeak w σ

/--
Make `n` successive copies of the handle `h` through the header's copy
constructor.  Each copy has the same members as `h`, so only the heap
effect accumulates.
-/
def copies (n : Nat) (h : SharedPtr) (σ : Heap) : Option Heap :=
  match n with
  | 0 => some σ
  | n + 1 =>
      match SharedPtr.copy h σ with
      | none => none
      | some (_, σ1) => copies n h σ1

/--
Destroy `n` shared handles whose members equal those of `h`: each runs
`~SharedPtr`, hence `shared_release`, on the same block.
-/
def dtors (n : Nat) (h : SharedPtr) (σ : Heap) : Heap :=
  match n with
  | 0 => σ
  | n + 1 => dtors n h (SharedPtr.dtor h σ)

/--
Destroy `n` weak handles whose members equal those of `w`: each runs
`~WeakPtr`, hence `weak_release`, on the same block.
-/
def weakDtors (n : Nat) (w : WeakPtr) (σ : Heap) : Heap :=
  match n with
  | 0 => σ
  | n + 1 => weakDtors n w (WeakPtr.dtor w σ)

/-- Heap in which every block is freshly constructed (`strong = 1`,
`weak = 0`); used to instantiate theorems at concrete inputs. -/
def heap0 : Heap := fun _ => freshBlock

/-- Heap in which every block has one strong owner and two weak
observers; used to instantiate theorems at concrete inputs. -/
def heap1 : Heap := fun _ => ⟨1, 2, 0, 0⟩

lemma copies_spec : ∀ (n : Nat) (h : SharedPtr) (σ : Heap) (i : BlockId),
    h.cb_ = some i → (σ i).shared_count + n < w64 →
    ∃ σ1, copies n h σ = some σ1 ∧
      (σ1 i).shared_count = (σ i).shared_count + n ∧
      (σ1 i).weak_count = (σ i).weak_count ∧
      (σ1 i).dispose_calls = (σ i).dispose_calls ∧
      (σ1 i).destroy_calls = (σ i).destroy_calls ∧
      ∀ j, j ≠ i → σ1 j = σ j
  | 0, h, σ, i, hcb, hb =>
      ⟨σ, rfl, rfl, rfl, rfl, rfl, fun _ _ => rfl⟩
  | n + 1, h, σ, i, hcb, hb => by
      have hi : inc64 (σ i).shared_count = (σ i).shared_count + 1 :=
        inc64_eq_of_lt (by omega)
      obtain ⟨σ2, hrun, hsc, hwc, hd1, hd2, hother⟩ :=
        copies_spec n h
          (updateHeap σ i
            { σ i with shared_count := inc64 (σ i).shared_count }) i hcb
          (by rw [updateHeap_same]; simp [hi]; omega)
      rw [updateHeap_same] at hsc hwc hd1 hd2
      refine ⟨σ2, ?_, ?_, ?_, ?_, ?_, ?_⟩
      · simpa [copies, SharedPtr.copy, hcb] using hrun
      · simp only [hi] at hsc; omega
      · simpa using hwc
      · simpa using hd1
      · simpa using hd2
      · intro j hj
        rw [hother j hj, updateHeap_other _ _ _ _ hj]

lemma dtors_spec : ∀ (n : Nat) (h : SharedPtr) (σ : Heap) (i : BlockId),
    h.cb_ = some i → (σ i).shared_count = n + 1 → n + 1 < w64 →
    ((dtors n h σ) i).shared_count = 1 ∧
    ((dtors n h σ) i).weak_count = (σ i).weak_count ∧
    ((dtors n h σ) i).dispose_calls = (σ i).dispose_calls ∧
    ((dtors n h σ) i).destroy_calls = (σ i).destroy_calls ∧
    ∀ j, j ≠ i → (dtors n h σ) j = σ j
  | 0, h, σ, i, hcb, hsc, hb => ⟨hsc, rfl, rfl, rfl, fun _ _ => rfl⟩
  | n + 1, h, σ, i, hcb, hsc, hb => by
      have hd : dec64 (σ i).shared_count = (σ i).shared_count - 1 :=
        dec64_eq_of_lt (by omega) (by omega)
      have hstep : SharedPtr.dtor h σ = updateHeap σ i (σ i).shared_release := by
        simp [SharedPtr.dtor, hcb]
      have hne : ¬ (dec64 (σ i).shared_count = 0) := by
        rw [hd]; omega
      obtain ⟨ha, hw, h1, h2, hother⟩ :=
        dtors_spec n h (updateHeap σ i (σ i).shared_release) i hcb
          (by rw [updateHeap_same, shared_release_shared_count, hd]; omega)
          (by omega)
      rw [updateHeap_same] at hw h1 h2
      have hrun : dtors (n + 1) h σ
          = dtors n h (updateHeap σ i (σ i).shared_release) := by
        simp [dtors, hstep]
      refine ⟨?_, ?_, ?_, ?_, ?_⟩
      · rw [hrun]; exact ha
      · rw [hrun, hw, shared_release_weak_count]
      · rw [hrun, h1, shared_release_dispose_calls, if_neg hne]
        omega
      · rw [hrun, h2, shared_release_destroy_calls,
          if_neg (by intro hc; exact hne hc.1)]
        omega
      · intro j hj
        rw [hrun, hother j hj, updateHeap_other _ _ _ _ hj]

/--
Claim C3: for every non-empty Shared Handle `h` and every `N ≥ 0`, after
making `N` copies of `h` (each copy incrementing the block's strong count
by one), `h.use_count()` returns `N + 1`, and after destroying all `N`
copies `h.use_count()` returns `1`.  The claim's counts `N + 1` and `1`
presuppose that `h` starts as the block's only strong owner
(`use_count() = 1`, as for a freshly constructed handle).
-/
theorem C3_use_count_after_copies (h : SharedPtr) (σ : Heap) (i : BlockId)
    (N : Nat)
    (hcb : h.cb_ = some i)
    (hone : (σ i).shared_count = 1)
    (hN : N + 2 < w64) :
    ∃ σ1, copies N h σ = some σ1 ∧
      SharedPtr.use_count h σ1 = some (N + 1) ∧
      SharedPtr.use_count h (dtors N h σ1) = some 1 := by
  obtain ⟨σ1, hrun, hsc, hwc, hd1, hd2, hother⟩ :=
    copies_spec N h σ i hcb (by omega)
  have hsc1 : (σ1 i).shared_count = N + 1 := by omega
  obtain ⟨hs2, -, -, -, -⟩ :=
    dtors_spec N h σ1 i hcb (by omega) (by omega)
  exact ⟨σ1, hrun,
    by simp [SharedPtr.use_count, hcb, hsc1],
    by simp [SharedPtr.use_count, hcb, hs2]⟩

/--
Concrete instantiation of `C3_use_count_after_copies`: a fresh handle on
block 0 of `heap0`, two copies made, `use_count` is 3, and after both
copies are destroyed `use_count` is 1 again.
-/
theorem C3_use_count_after_copies_witness :
    (⟨some 0, some 0⟩ : SharedPtr).cb_ = some 0 ∧
    (heap0 0).shared_count = 1 ∧
    ∃ σ1, copies 2 ⟨some 0, some 0⟩ heap0 = some σ1 ∧
      SharedPtr.use_count ⟨some 0, some 0⟩ σ1 = some 3 ∧
      SharedPtr.use_count ⟨some 0, some 0⟩ (dtors 2 ⟨some 0, some 0⟩ σ1)
        = some 1 :=
  ⟨rfl, rfl,
    C3_use_count_after_copies ⟨some 0, some 0⟩ heap0 0 2 rfl rfl (by decide)⟩

/--
Claim C4 fails as stated on an empty Weak Handle (reachable via the move
constructor, header lines 259-265, which nulls its source, or via the
default constructor of `part_000`, lines 246-248): `expired()` is `false`
because of the `cb_ &&` short-circuit, yet `lock()` does not return a new
Shared Handle sharing a control block with an incremented strong count —
it runs `SharedPtr<T>(*this)`, whose `++(cb_->shared_count)` dereferences
the null control-block pointer (undefined behaviour, `none`).
-/
theorem C4_lock_counterexample :
    WeakPtr.expired ⟨none, none⟩ heap0 = false ∧
    WeakPtr.lock ⟨none, none⟩ heap0 = none := ⟨rfl, rfl⟩

/--
Claim C4 amended: for every Weak Handle `w` holding a non-null
control-block reference, `w.lock()` returns an empty Shared Handle if
`w.expired()` is true (strong count `0`, as after the last Shared Handle
to the block is destroyed), and otherwise returns a new Shared Handle
sharing `w`'s control block with the block's strong count incremented by
exactly one and every other block untouched.
-/
theorem C4_lock_amended (w : WeakPtr) (σ : Heap) (i : BlockId)
    (hcb : w.cb_ = some i)
    (hb : (σ i).shared_count + 1 < w64) :
    ((σ i).shared_count = 0 →
      WeakPtr.expired w σ = true ∧
      WeakPtr.lock w σ = some (⟨none, none⟩, σ)) ∧
    (0 < (σ i).shared_count →
      WeakPtr.expired w σ = false ∧
      WeakPtr.lock w σ
        = some (⟨some i, w.ptr_⟩,
            updateHeap σ i
              { σ i with shared_count := (σ i).shared_count + 1 }) ∧
      ∀ j, j ≠ i →
        updateHeap σ i
          { σ i with shared_count := (σ i).shared_count + 1 } j = σ j) := by
  constructor
  · intro h0
    refine ⟨?_, ?_⟩
    · simp [WeakPtr.expired, hcb, h0]
    · simp [WeakPtr.lock, WeakPtr.expired, hcb, h0]
  · intro hpos
    have hne : ¬ (σ i).shared_count = 0 := by omega
    have hi : inc64 (σ i).shared_count = (σ i).shared_count + 1 :=
      inc64_eq_of_lt hb
    refine ⟨?_, ?_, ?_⟩
    · simp [WeakPtr.expired, hcb, hne]
    · simp [WeakPtr.lock, WeakPtr.expired, SharedPtr.fromWeak, hcb, hne, hi]
    · intro j hj
      exact updateHeap_other _ _ _ _ hj

/--
Concrete instantiation of `C4_lock_amended`: a weak handle on block 0 of
`heap0` (strong count 1) is not expired, and `lock` returns a handle on
the same block with the strong count raised to 2.
-/
theorem C4_lock_amended_witness :
    (⟨some 0, some 0⟩ : WeakPtr).cb_ = some 0 ∧
    (heap0 0).shared_count + 1 < w64 ∧
    WeakPtr.expired ⟨some 0, some 0⟩ heap0 = false ∧
    WeakPtr.lock ⟨some 0, some 0⟩ heap0
      = some (⟨some 0, some 0⟩, updateHeap heap0 0 ⟨2, 0, 0, 0⟩) :=
  ⟨rfl, by decide,
    ((C4_lock_amended ⟨some 0, some 0⟩ heap0 0 rfl (by decide)).2
      (by decide)).1,
    ((C4_lock_amended ⟨some 0, some 0⟩ heap0 0 rfl (by decide)).2
      (by decide)).2.1⟩

/--
Claim C5 fails as stated on the header variant: its copy constructor
(lines 131-134) performs `++(cb_->shared_count)` unconditionally, so
copy-construction — and hence the copy assignment of lines 151-156, which
begins with `auto tmp_ptr = other;` — from an empty (null-block) source
dereferences a null pointer (undefined behaviour, `none`) instead of
yielding an empty handle.
-/
theorem C5_copy_empty_counterexample :
    SharedPtr.copy ⟨none, none⟩ heap0 = none ∧
    SharedPtr.copy ⟨none, none⟩ heap0 ≠ some (⟨none, none⟩, heap0) ∧
    SharedPtr.assign ⟨some 0, some 0⟩ ⟨none, none⟩ heap0 = none :=
  ⟨rfl, by simp [SharedPtr.copy], rfl⟩

/--
Claim C5 amended: in the `part_000` variant the same-type copy
constructor (lines 135-139) guards its increment with `if (cb_)`, so
copy-constructing from an empty source yields an empty handle and leaves
every control block — hence every strong count — untouched.  In the
header variant, and for the converting copy forms of both files, the
source must be non-empty: copying from empty is a null dereference.
-/
theorem C5_copy_empty_amended (σ : Heap) :
    SharedPtr.copy_guarded ⟨none, none⟩ σ = (⟨none, none⟩, σ) ∧
    SharedPtr.copy ⟨none, none⟩ σ = none :=
  ⟨rfl, rfl⟩

/--
Claim C6: `swap` between two Shared Handles exchanges their control-block
references and cached payload addresses, and the heap — in particular the
strong count and weak count of every block — is unchanged by the swap.
-/
theorem C6_swap_exchanges (a b : SharedPtr) (σ : Heap) :
    SharedPtr.swap a b σ = (⟨b.cb_, b.ptr_⟩, ⟨a.cb_, a.ptr_⟩, σ) ∧
    ∀ i, ((SharedPtr.swap a b σ).2.2 i).shared_count = (σ i).shared_count ∧
      ((SharedPtr.swap a b σ).2.2 i).weak_count = (σ i).weak_count :=
  ⟨rfl, fun _ => ⟨rfl, rfl⟩⟩

/--
Claim C7: `reset()` on a non-empty Shared Handle referencing block `i`
leaves the handle empty (null block reference and null cached payload
address) and performs exactly the full release protocol
(`shared_release`) on that block: the strong count decreases by one, and
no other block is touched.
-/
theorem C7_reset_releases (h : SharedPtr) (σ : Heap) (i : BlockId)
    (hcb : h.cb_ = some i)
    (hsc : 0 < (σ i).shared_count)
    (hb : (σ i).shared_count < w64) :
    SharedPtr.reset h σ
      = (⟨none, none⟩, updateHeap σ i (σ i).shared_release) ∧
    ((SharedPtr.reset h σ).2 i).shared_count = (σ i).shared_count - 1 ∧
    ∀ j, j ≠ i → (SharedPtr.reset h σ).2 j = σ j := by
  have hd : dec64 (σ i).shared_count = (σ i).shared_count - 1 :=
    dec64_eq_of_lt hsc hb
  have h1 : SharedPtr.reset h σ
      = (⟨none, none⟩, updateHeap σ i (σ i).shared_release) := by
    simp [SharedPtr.reset, SharedPtr.swap, SharedPtr.dtor, hcb]
  refine ⟨h1, ?_, ?_⟩
  · rw [h1]
    simp only [updateHeap_same, shared_release_shared_count, hd]
  · intro j hj
    rw [h1]
    exact updateHeap_other _ _ _ _ hj

/--
Concrete instantiation of `C7_reset_releases`: resetting a fresh handle
on block 0 of `heap0` empties it and drops the block's strong count from
1 to 0 through `shared_release`.
-/
theorem C7_reset_releases_witness :
    0 < (heap0 0).shared_count ∧
    SharedPtr.reset ⟨some 0, some 0⟩ heap0
      = (⟨none, none⟩, updateHeap heap0 0 (heap0 0).shared_release) ∧
    ((SharedPtr.reset ⟨some 0, some 0⟩ heap0).2 0).shared_count
      = (heap0 0).shared_count - 1 :=
  ⟨by decide,
    (C7_reset_releases ⟨some 0, some 0⟩ heap0 0 rfl (by decide)
      (by decide)).1,
    (C7_reset_releases ⟨some 0, some 0⟩ heap0 0 rfl (by decide)
      (by decide)).2.1⟩

lemma shared_release_no_dispose (b : BaseControlBlock)
    (h1 : 1 < b.shared_count) (h2 : b.shared_count < w64) :
    b.shared_release = { b with shared_count := b.shared_count - 1 } := by
  have hd : dec64 b.shared_count = b.shared_count - 1 :=
    dec64_eq_of_lt (by omega) h2
  simp only [BaseControlBlock.shared_release, hd]
  rw [if_neg (by omega)]

/--
Claim C8: self-assignment of a Shared Handle (`h = h`, copy or move)
through the swap-based assignment protocol is safe: afterwards `h`
references the same control block and cached payload address as before,
the heap — hence the block's strong count — is unchanged, and neither
`dispose` nor `destroy` is invoked (the copy's increment is undone by the
temporary's release while the count stays positive; the move path never
touches the block).
-/
theorem C8_self_assignment_safe (h : SharedPtr) (σ : Heap) (i : BlockId)
    (hcb : h.cb_ = some i)
    (hsc : 0 < (σ i).shared_count)
    (hb : (σ i).shared_count + 1 < w64) :
    SharedPtr.assign h h σ = some (h, σ) ∧
    SharedPtr.assign_move_self h σ = (h, σ) := by
  obtain ⟨cb, ptr⟩ := h
  have hcb2 : cb = some i := hcb
  subst hcb2
  have hi : inc64 (σ i).shared_count = (σ i).shared_count + 1 :=
    inc64_eq_of_lt hb
  constructor
  · have hrel : ((updateHeap σ i
        { σ i with shared_count := inc64 (σ i).shared_count }) i).shared_release
        = σ i := by
      rw [updateHeap_same]
      rw [shared_release_no_dispose _ (by simp only [hi]; omega)
        (by simp only [hi]; omega)]
      simp [hi]
    have hheap : updateHeap (updateHeap σ i
        { σ i with shared_count := inc64 (σ i).shared_count }) i
        ((updateHeap σ i
          { σ i with shared_count := inc64 (σ i).shared_count }) i).shared_release
        = σ := by
      rw [hrel]
      funext j
      by_cases hj : j = i
      · subst hj; rw [updateHeap_same]
      · rw [updateHeap_other _ _ _ _ hj, updateHeap_other _ _ _ _ hj]
    simp only [SharedPtr.assign, SharedPtr.copy, SharedPtr.swap, SharedPtr.dtor]
    rw [hheap]
  · rfl

/--
Concrete instantiation of `C8_self_assignment_safe`: self-assigning the
fresh handle on block 0 of `heap0`, by copy or by move, returns the same
handle and leaves the heap unchanged.
-/
theorem C8_self_assignment_safe_witness :
    0 < (heap0 0).shared_count ∧
    SharedPtr.assign ⟨some 0, some 0⟩ ⟨some 0, some 0⟩ heap0
      = some (⟨some 0, some 0⟩, heap0) ∧
    SharedPtr.assign_move_self ⟨some 0, some 0⟩ heap0
      = (⟨some 0, some 0⟩, heap0) :=
  ⟨by decide,
    (C8_self_assignment_safe ⟨some 0, some 0⟩ heap0 0 rfl (by decide)
      (by decide)).1,
    (C8_self_assignment_safe ⟨some 0, some 0⟩ heap0 0 rfl (by decide)
      (by decide)).2⟩

/--
Claim C9: constructing a Weak Handle from a non-empty Shared Handle `h`
increments the block's weak count by one and leaves the block's strong
count — and hence `h.use_count()` — unchanged; no other block is touched.
-/
theorem C9_weak_ctor_frame (h : SharedPtr) (σ : Heap) (i : BlockId)
    (hcb : h.cb_ = some i)
    (hb : (σ i).weak_count + 1 < w64) :
    WeakPtr.fromShared h σ
      = some (⟨some i, h.ptr_⟩,
          updateHeap σ i
            { σ i with weak_count := (σ i).weak_count + 1 }) ∧
    ((updateHeap σ i
        { σ i with weak_count := (σ i).weak_count + 1 }) i).shared_count
      = (σ i).shared_count ∧
    SharedPtr.use_count h
        (updateHeap σ i { σ i with weak_count := (σ i).weak_count + 1 })
      = SharedPtr.use_count h σ ∧
    ∀ j, j ≠ i →
      updateHeap σ i { σ i with weak_count := (σ i).weak_count + 1 } j
        = σ j := by
  have hi : inc64 (σ i).weak_count = (σ i).weak_count + 1 :=
    inc64_eq_of_lt hb
  refine ⟨?_, ?_, ?_, ?_⟩
  · simp [WeakPtr.fromShared, hcb, hi]
  · rw [updateHeap_same]
  · simp [SharedPtr.use_count, hcb, updateHeap_same]
  · intro j hj
    exact updateHeap_other _ _ _ _ hj

/--
Concrete instantiation of `C9_weak_ctor_frame`: attaching a weak handle
to the fresh handle on block 0 of `heap0` raises the weak count to 1 and
leaves `use_count` at 1.
-/
theorem C9_weak_ctor_frame_witness :
    (⟨some 0, some 0⟩ : SharedPtr).cb_ = some 0 ∧
    (heap0 0).weak_count + 1 < w64 ∧
    WeakPtr.fromShared ⟨some 0, some 0⟩ heap0
      = some (⟨some 0, some 0⟩, updateHeap heap0 0 ⟨1, 1, 0, 0⟩) ∧
    SharedPtr.use_count ⟨some 0, some 0⟩ (updateHeap heap0 0 ⟨1, 1, 0, 0⟩)
      = SharedPtr.use_count ⟨some 0, some 0⟩ heap0 :=
  ⟨rfl, by decide,
    (C9_weak_ctor_frame ⟨some 0, some 0⟩ heap0 0 rfl (by decide)).1,
    (C9_weak_ctor_frame ⟨some 0, some 0⟩ heap0 0 rfl (by decide)).2.2.1⟩

lemma weakDtors_spec : ∀ (k : Nat) (w : WeakPtr) (σ : Heap) (i : BlockId),
    w.cb_ = some i → 0 < (σ i).shared_count → k ≤ (σ i).weak_count →
    (σ i).weak_count < w64 →
    ((weakDtors k w σ) i).shared_count = (σ i).shared_count ∧
    ((weakDtors k w σ) i).weak_count = (σ i).weak_count - k ∧
    ((weakDtors k w σ) i).dispose_calls = (σ i).dispose_calls ∧
    ((weakDtors k w σ) i).destroy_calls = (σ i).destroy_calls ∧
    ∀ j, j ≠ i → (weakDtors k w σ) j = σ j
  | 0, w, σ, i, _, _, _, _ => ⟨rfl, rfl, rfl, rfl, fun _ _ => rfl⟩
  | k + 1, w, σ, i, hcb, hsc, hk, hb => by
      have hwc : 0 < (σ i).weak_count := by omega
      have hd : dec64 (σ i).weak_count = (σ i).weak_count - 1 :=
        dec64_eq_of_lt hwc hb
      have hstep : WeakPtr.dtor w σ = updateHeap σ i (σ i).weak_release := by
        simp [WeakPtr.dtor, hcb]
      obtain ⟨ha, hw, h1, h2, hother⟩ :=
        weakDtors_spec k w (updateHeap σ i (σ i).weak_release) i hcb
          (by rw [updateHeap_same, weak_release_shared_count]; exact hsc)
          (by rw [updateHeap_same, weak_release_weak_count, hd]; omega)
          (by rw [updateHeap_same, weak_release_weak_count, hd]; omega)
      rw [updateHeap_same] at ha hw h1 h2
      have hrun : weakDtors (k + 1) w σ
          = weakDtors k w (updateHeap σ i (σ i).weak_release) := by
        simp [weakDtors, hstep]
      have hnc : ¬ (dec64 (σ i).weak_count = 0 ∧ (σ i).shared_count = 0) := by
        intro hc
        omega
      refine ⟨?_, ?_, ?_, ?_, ?_⟩
      · rw [hrun, ha, weak_release_shared_count]
      · rw [hrun, hw, weak_release_weak_count, hd]
        omega
      · rw [hrun, h1, weak_release_dispose_calls]
      · rw [hrun, h2, weak_release_destroy_calls, if_neg hnc]
        omega
      · intro j hj
        rw [hrun, hother j hj, updateHeap_other _ _ _ _ hj]

/--
Claim C10: no Weak Handle operation ever tears down the payload:
`weak_release` leaves the strong count and the `dispose` instrumentation
untouched on every block (first two conjuncts, unconditional); and for a
block with positive strong count, destroying any number `k` of Weak
Handles referencing it only decreases its weak count by `k`, while the
payload stays alive (no `dispose`) and the block stays allocated (no
`destroy`), other blocks being untouched.
-/
theorem C10_weak_release_never_disposes (b : BaseControlBlock)
    (w : WeakPtr) (σ : Heap) (i : BlockId) (k : Nat)
    (hcb : w.cb_ = some i)
    (hsc : 0 < (σ i).shared_count)
    (hk : k ≤ (σ i).weak_count)
    (hb : (σ i).weak_count < w64) :
    b.weak_release.dispose_calls = b.dispose_calls ∧
    b.weak_release.shared_count = b.shared_count ∧
    ((weakDtors k w σ) i).shared_count = (σ i).shared_count ∧
    ((weakDtors k w σ) i).weak_count = (σ i).weak_count - k ∧
    ((weakDtors k w σ) i).dispose_calls = (σ i).dispose_calls ∧
    ((weakDtors k w σ) i).destroy_calls = (σ i).destroy_calls ∧
    ∀ j, j ≠ i → (weakDtors k w σ) j = σ j := by
  obtain ⟨h1, h2, h3, h4, h5⟩ := weakDtors_spec k w σ i hcb hsc hk hb
  exact ⟨weak_release_dispose_calls b, weak_release_shared_count b,
    h1, h2, h3, h4, h5⟩

/--
Concrete instantiation of `C10_weak_release_never_disposes`: block 0 of
`heap1` has strong count 1 and weak count 2; destroying both weak handles
leaves the strong count at 1, the weak count at 0, and invokes neither
`dispose` nor `destroy`.
-/
theorem C10_weak_release_never_disposes_witness :
    0 < (heap1 0).shared_count ∧ 2 ≤ (heap1 0).weak_count ∧
    ((weakDtors 2 ⟨some 0, some 0⟩ heap1) 0).shared_count
      = (heap1 0).shared_count ∧
    ((weakDtors 2 ⟨some 0, some 0⟩ heap1) 0).weak_count
      = (heap1 0).weak_count - 2 ∧
    ((weakDtors 2 ⟨some 0, some 0⟩ heap1) 0).dispose_calls
      = (heap1 0).dispose_calls ∧
    ((weakDtors 2 ⟨some 0, some 0⟩ heap1) 0).destroy_calls
      = (heap1 0).destroy_calls :=
  ⟨by decide, by decide,
    (C10_weak_release_never_disposes freshBlock ⟨some 0, some 0⟩ heap1 0 2
      rfl (by decide) (by decide) (by decide)).2.2.1,
    (C10_weak_release_never_disposes freshBlock ⟨some 0, some 0⟩ heap1 0 2
      rfl (by decide) (by decide) (by decide)).2.2.2.1,
    (C10_weak_release_never_disposes freshBlock ⟨some 0, some 0⟩ heap1 0 2
      rfl (by decide) (by decide) (by decide)).2.2.2.2.1,
    (C10_weak_release_never_disposes freshBlock ⟨some 0, some 0⟩ heap1 0 2
      rfl (by decide) (by decide) (by decide)).2.2.2.2.2.1⟩

end My
